import Mathlib

/-!
Verification of the `Toast` notification component
(`src/client/src/components/ui/Toast` in the Pazar+ repository).

The component is embedded shallowly: its props become a `Config`, its React
state and refs become a `TState`, and each handler (`handleClose`,
`handleMouseEnter`, `handleMouseLeave`, the mount effect, the effect cleanup,
the two `updateProgress` closures) becomes a Lean function.  The browser event
loop is abstracted as a list of events folded over the state with `step`:
delivery of a scheduled timeout or animation frame is an event, guarded by the
presence of the corresponding handle (a cancelled handle never fires).
Time stamps and progress values are rationals, mirroring JavaScript arithmetic
on the (small, exactly representable) values involved.
-/

namespace PazarToast

/-- Component props relevant to the timing logic.  `duration` is `none` when
the caller passes a non-numeric or missing value (source line 64 checks
`typeof duration === "number"`). -/
structure Config where
  duration : Option ℚ
  showProgress : Bool
deriving DecidableEq

/-- `safeDuration`: `typeof duration === "number" && duration >= 0 ? duration : 5000`
(source lines 64-65). -/
def Config.safeDuration (cfg : Config) : ℚ :=
  match cfg.duration with
  | some d => if 0 ≤ d then d else 5000
  | none => 5000

/-- The mount-path progress recomputation (source lines 112-114):
`newProgress = Math.max(0, 100 - (elapsed / safeDuration) * 100)`. -/
def updateProgressMount (safeDuration elapsed : ℚ) : ℚ :=
  max 0 (100 - (elapsed / safeDuration) * 100)

/-- The resume-path progress recomputation (source lines 159-164):
`newProgress = Math.max(0, initialProgress - (elapsed / remainingTime) * initialProgress)`. -/
def updateProgressResume (initialProgress remainingTime elapsed : ℚ) : ℚ :=
  max 0 (initialProgress - (elapsed / remainingTime) * initialProgress)

/-- Data captured by the two `updateProgress` closures: the mount-effect one
(source line 111 captures `startTime`; `safeDuration` comes from the render
scope) and the mouse-leave one (source lines 157-158 capture `startTime`,
`initialProgress`, and `remainingTime`). -/
inductive PJob where
  | mountJob (startTime : ℚ)
  | resumeJob (startTime initialProgress remainingTime : ℚ)
deriving DecidableEq

/-- Run one progress recompute step at wall-clock time `now`: returns the new
progress value and whether the closure reschedules itself
(`newProgress > 0 && elapsed < duration`, source lines 118 and 168). -/
def runPJob (safeDuration : ℚ) (job : PJob) (now : ℚ) : ℚ × Bool :=
  match job with
  | .mountJob startTime =>
      let elapsed := now - startTime
      let newProgress := updateProgressMount safeDuration elapsed
      (newProgress, decide (0 < newProgress) && decide (elapsed < safeDuration))
  | .resumeJob startTime initialProgress remainingTime =>
      let elapsed := now - startTime
      let newProgress := updateProgressResume initialProgress remainingTime elapsed
      (newProgress, decide (0 < newProgress) && decide (elapsed < remainingTime))

/-- React state and refs of one toast instance.  `timerRef` holds the pending
auto-hide timeout (as its scheduled absolute fire time), `progressRef` the
pending animation-frame job.  `pendingOnClose` holds the fire times of the
300 ms dismissal timeouts scheduled by `handleClose` (source line 75); the
source keeps no ref to these.  `onCloseCount` counts invocations of the
`onClose` prop.  `mounted` is false after the effect cleanup ran. -/
structure TState where
  isVisible : Bool
  isLeaving : Bool
  progress : ℚ
  timerRef : Option ℚ
  progressRef : Option PJob
  pendingOnClose : List ℚ
  onCloseCount : Nat
  mounted : Bool
deriving DecidableEq

/-- State at first render: `useState(false)`, `useState(false)`, `useState(100)`,
refs null (source lines 54-59). -/
def initialState : TState :=
  { isVisible := false
    isLeaving := false
    progress := 100
    timerRef := none
    progressRef := none
    pendingOnClose := []
    onCloseCount := 0
    mounted := true }

/-- `handleClose` (source lines 72-84): bail out if already leaving, otherwise
set `isLeaving` and schedule the `onClose` invocation 300 ms later.  The
scheduled timeout is anonymous: it is not stored in `timerRef` or
`progressRef`. -/
def handleClose (now : ℚ) (s : TState) : TState :=
  if s.isLeaving then s
  else
    { s with isLeaving := true, pendingOnClose := s.pendingOnClose ++ [now + 300] }

/-- Body of the mount effect (source lines 87-124): make the toast visible on
the next animation frame, and when `safeDuration > 0` start the auto-hide
timeout; additionally start the progress animation frame when `showProgress`. -/
def mountEffect (cfg : Config) (now : ℚ) (s : TState) : TState :=
  let s1 := { s with isVisible := true }
  if 0 < cfg.safeDuration then
    let s2 := { s1 with timerRef := some (now + cfg.safeDuration) }
    if cfg.showProgress then
      { s2 with progressRef := some (.mountJob now) }
    else s2
  else s1

/-- The effect cleanup body without the unmount flag (source lines 126-128):
`clearTimeout(timerRef.current)` and `cancelAnimationFrame(progressRef.current)`.
Cancelling a handle is modelled by dropping it, so it can no longer fire. -/
def cleanupRefs (s : TState) : TState :=
  { s with timerRef := none, progressRef := none }

/-- `handleMouseEnter` (source lines 144-147): cancel both pending handles. -/
def handleMouseEnter (s : TState) : TState :=
  cleanupRefs s

/-- `handleMouseLeave` (source lines 149-175): when `safeDuration > 0` and
`progress > 0`, restart the auto-hide timeout for
`remainingTime = (progress / 100) * safeDuration` and, when `showProgress`,
restart progress recomputation from `initialProgress = progress` over
`remainingTime`. -/
def handleMouseLeave (cfg : Config) (now : ℚ) (s : TState) : TState :=
  if 0 < cfg.safeDuration ∧ 0 < s.progress then
    let remainingTime := (s.progress / 100) * cfg.safeDuration
    let s1 := { s with timerRef := some (now + remainingTime) }
    if cfg.showProgress then
      { s1 with progressRef := some (.resumeJob now s.progress remainingTime) }
    else s1
  else s

/-- Events delivered to one toast instance by the browser / host application.
`timerFire`, `animFrame` and `closeFire` are the scheduler delivering a
pending timeout / animation frame / dismissal timeout; they are no-ops when
the corresponding handle is absent (cancelled or never scheduled).
`effectRerun` is React re-running the mount effect after its dependencies
changed (its dependency array, source lines 133-141, includes `handleClose`).
`forcedClose` is the external forced-dismiss signal reaching the close path.
`focusEnter` is keyboard focus reaching the toast (it is focusable,
`tabIndex = 0`, source line 233): the rendered element wires `onKeyDown`,
`onMouseEnter` and `onMouseLeave` only (source lines 234-236) and no
`onFocus` handler, so a focus event dispatches nothing.
User-interface events cannot be delivered to an unmounted component. -/
inductive Ev where
  | timerFire (now : ℚ)
  | clickClose (now : ℚ)
  | escapeKey (now : ℚ)
  | forcedClose (now : ℚ)
  | mouseEnter
  | mouseLeave (now : ℚ)
  | focusEnter
  | animFrame (now : ℚ)
  | closeFire (now : ℚ)
  | effectRerun (now : ℚ)
  | unmount
deriving DecidableEq

/-- One step of the event loop. -/
def step (cfg : Config) (s : TState) (e : Ev) : TState :=
  match e with
  | .timerFire now =>
      match s.timerRef with
      | some _ => handleClose now { s with timerRef := none }
      | none => s
  | .clickClose now => if s.mounted then handleClose now s else s
  | .escapeKey now => if s.mounted then handleClose now s else s
  | .forcedClose now => if s.mounted then handleClose now s else s
  | .mouseEnter => if s.mounted then handleMouseEnter s else s
  | .mouseLeave now => if s.mounted then handleMouseLeave cfg now s else s
  | .focusEnter => s
  | .animFrame now =>
      match s.progressRef with
      | some job =>
          let r := runPJob cfg.safeDuration job now
          { s with progress := r.1, progressRef := if r.2 then some job else none }
      | none => s
  | .closeFire _ =>
      match s.pendingOnClose with
      | _ :: rest => { s with pendingOnClose := rest, onCloseCount := s.onCloseCount + 1 }
      | [] => s
  | .effectRerun now => if s.mounted then mountEffect cfg now (cleanupRefs s) else s
  | .unmount => { cleanupRefs s with mounted := false }

/-- Run a toast from mount (effect applied at time 0) through a list of events. -/
def run (cfg : Config) (es : List Ev) : TState :=
  es.foldl (step cfg) (mountEffect cfg 0 initialState)

/-- Continue a run from an arbitrary state. -/
def runFrom (cfg : Config) (s : TState) (es : List Ev) : TState :=
  es.foldl (step cfg) s

/-- Number of dismissal-callback invocations that have happened plus those
irrevocably scheduled. -/
def dismissals (s : TState) : Nat :=
  s.onCloseCount + s.pendingOnClose.length

/-- Events that are a manual or forced close trigger. -/
def isManualClose : Ev → Bool
  | .clickClose _ => true
  | .escapeKey _ => true
  | .forcedClose _ => true
  | _ => false

/-- Events that are pure waiting: the scheduler delivering pending callbacks,
with no user interaction and no re-render. -/
def isWaitEv : Ev → Bool
  | .timerFire _ => true
  | .animFrame _ => true
  | .closeFire _ => true
  | _ => false

/-- The progress bar is rendered only when `showProgress && safeDuration > 0`
(source line 291). -/
def showProgressBar (cfg : Config) : Bool :=
  cfg.showProgress && decide (0 < cfg.safeDuration)

/-- A sample configuration used to instantiate universally quantified
theorems: `duration = 5000`, progress bar on (the component defaults). -/
def sampleCfg : Config := { duration := some 5000, showProgress := true }

/-- A sample configuration with `duration = 0` (persistent toast). -/
def zeroCfg : Config := { duration := some 0, showProgress := true }

/-- A sample configuration with the progress bar disabled. -/
def noBarCfg : Config := { duration := some 5000, showProgress := false }

/-! ### The at-most-once dismissal invariant -/

/-- The close-accounting invariant: the number of dismissal-callback
invocations performed or irrevocably scheduled is `1` exactly when the
instance is in the Leaving state, and `0` before. -/
def closeInv (s : TState) : Prop :=
  dismissals s = if s.isLeaving then 1 else 0

lemma handleClose_isLeaving (now : ℚ) (s : TState) :
    (handleClose now s).isLeaving = true := by
  unfold handleClose
  split
  · assumption
  · rfl

/-- `closeInv` only depends on the close-accounting fields. -/
lemma closeInv_of_eq (s t : TState) (hL : t.isLeaving = s.isLeaving)
    (hp : t.pendingOnClose = s.pendingOnClose) (hc : t.onCloseCount = s.onCloseCount)
    (h : closeInv s) : closeInv t := by
  unfold closeInv dismissals at *
  rw [hL, hp, hc]
  exact h

lemma closeInv_handleClose (now : ℚ) (s : TState) (h : closeInv s) :
    closeInv (handleClose now s) := by
  unfold closeInv dismissals handleClose at *
  by_cases hL : s.isLeaving = true
  · rw [if_pos hL]
    exact h
  · rw [if_neg hL]
    rw [Bool.not_eq_true] at hL
    rw [hL] at h
    simp only [Bool.false_eq_true, if_false, Nat.add_eq_zero] at h
    simp [List.length_append, h.1, h.2]

lemma dismissals_handleClose (now : ℚ) (s : TState) (h : closeInv s) :
    dismissals (handleClose now s) = 1 := by
  have h2 := closeInv_handleClose now s h
  unfold closeInv at h2
  rwa [handleClose_isLeaving, if_pos rfl] at h2

lemma mountEffect_isLeaving (cfg : Config) (now : ℚ) (s : TState) :
    (mountEffect cfg now s).isLeaving = s.isLeaving := by
  unfold mountEffect
  split <;> try split
  all_goals rfl

lemma mountEffect_dismissals (cfg : Config) (now : ℚ) (s : TState) :
    dismissals (mountEffect cfg now s) = dismissals s := by
  unfold mountEffect dismissals
  split <;> try split
  all_goals rfl

lemma mountEffect_pendingOnClose (cfg : Config) (now : ℚ) (s : TState) :
    (mountEffect cfg now s).pendingOnClose = s.pendingOnClose := by
  unfold mountEffect
  split <;> try split
  all_goals rfl

lemma mountEffect_onCloseCount (cfg : Config) (now : ℚ) (s : TState) :
    (mountEffect cfg now s).onCloseCount = s.onCloseCount := by
  unfold mountEffect
  split <;> try split
  all_goals rfl

lemma closeInv_step (cfg : Config) (s : TState) (e : Ev) (h : closeInv s) :
    closeInv (step cfg s e) := by
  cases e with
  | timerFire now =>
      simp only [step]
      cases ht : s.timerRef with
      | none => exact h
      | some t =>
          exact closeInv_handleClose now _ (closeInv_of_eq s _ rfl rfl rfl h)
  | clickClose now =>
      simp only [step]
      split
      · exact closeInv_handleClose now s h
      · exact h
  | escapeKey now =>
      simp only [step]
      split
      · exact closeInv_handleClose now s h
      · exact h
  | forcedClose now =>
      simp only [step]
      split
      · exact closeInv_handleClose now s h
      · exact h
  | mouseEnter =>
      simp only [step]
      split
      · exact closeInv_of_eq s _ rfl rfl rfl h
      · exact h
  | mouseLeave now =>
      simp only [step]
      split
      · unfold handleMouseLeave
        split
        · split
          · exact closeInv_of_eq s _ rfl rfl rfl h
          · exact closeInv_of_eq s _ rfl rfl rfl h
        · exact h
      · exact h
  | focusEnter => exact h
  | animFrame now =>
      simp only [step]
      cases hp : s.progressRef with
      | none => exact h
      | some job => exact closeInv_of_eq s _ rfl rfl rfl h
  | closeFire now =>
      simp only [step]
      cases hp : s.pendingOnClose with
      | nil => exact h
      | cons t rest =>
          unfold closeInv dismissals at *
          rw [hp] at h
          cases hB : s.isLeaving with
          | false =>
              rw [hB] at h
              simp_all
          | true =>
              rw [hB] at h
              simp_all
              omega
  | effectRerun now =>
      simp only [step]
      split
      · exact closeInv_of_eq s _
          (by rw [mountEffect_isLeaving]; rfl)
          (by rw [mountEffect_pendingOnClose]; rfl)
          (by rw [mountEffect_onCloseCount]; rfl) h
      · exact h
  | unmount =>
      simp only [step]
      exact closeInv_of_eq s _ rfl rfl rfl h

lemma closeInv_runFrom (cfg : Config) (s : TState) (es : List Ev) (h : closeInv s) :
    closeInv (runFrom cfg s es) := by
  induction es generalizing s with
  | nil => exact h
  | cons e rest ih =>
      simp only [runFrom, List.foldl_cons]
      exact ih (step cfg s e) (closeInv_step cfg s e h)

lemma closeInv_run (cfg : Config) (es : List Ev) : closeInv (run cfg es) := by
  have h0 : closeInv initialState := by
    unfold closeInv dismissals initialState
    rfl
  have h1 : closeInv (mountEffect cfg 0 initialState) := by
    unfold closeInv at *
    rw [mountEffect_dismissals, mountEffect_isLeaving]
    exact h0
  exact closeInv_runFrom cfg _ es h1

/-- C1: for every toast instance and every sequence of delivered events,
at most one dismissal-callback invocation happens or is scheduled, and exactly
one as soon as the instance is Leaving; a close request arriving while the
instance is already Leaving is a no-op (`if (isLeaving) return`, source line
73); and delivering a close trigger to a live instance always yields exactly
one dismissal, no matter how many triggers were delivered before. -/
theorem toast_dismissal_at_most_once (cfg : Config) (es : List Ev) :
    dismissals (run cfg es) ≤ 1
    ∧ (dismissals (run cfg es) = 1 ↔ (run cfg es).isLeaving = true)
    ∧ ((run cfg es).isLeaving = true → ∀ now, handleClose now (run cfg es) = run cfg es)
    ∧ (∀ now, (run cfg es).mounted = true →
        dismissals (step cfg (run cfg es) (.clickClose now)) = 1) := by
  have h := closeInv_run cfg es
  unfold closeInv at h
  refine ⟨?_, ?_, ?_, ?_⟩
  · rw [h]
    split <;> omega
  · constructor
    · intro h1
      by_contra hL
      rw [Bool.not_eq_true] at hL
      rw [hL] at h
      simp only [Bool.false_eq_true, if_false] at h
      omega
    · intro hL
      rw [hL] at h
      simpa using h
  · intro hL now
    unfold handleClose
    rw [if_pos hL]
  · intro now hm
    have hstep : step cfg (run cfg es) (.clickClose now) = handleClose now (run cfg es) := by
      simp [step, hm]
    rw [hstep]
    exact dismissals_handleClose now _ (closeInv_run cfg es)

/-- Witness for C1: close button, Escape key and the auto-hide timer all race
on the same concrete instance; exactly one dismissal results, and a further
close request is a no-op. -/
theorem toast_dismissal_at_most_once_witness :
    dismissals (run sampleCfg [Ev.clickClose 10, Ev.escapeKey 11, Ev.timerFire 5000]) ≤ 1
    ∧ handleClose 12 (run sampleCfg [Ev.clickClose 10, Ev.escapeKey 11, Ev.timerFire 5000])
        = run sampleCfg [Ev.clickClose 10, Ev.escapeKey 11, Ev.timerFire 5000]
    ∧ dismissals (step sampleCfg
        (run sampleCfg [Ev.clickClose 10, Ev.escapeKey 11, Ev.timerFire 5000])
        (.clickClose 13)) = 1 := by
  have h := toast_dismissal_at_most_once sampleCfg
    [Ev.clickClose 10, Ev.escapeKey 11, Ev.timerFire 5000]
  exact ⟨h.1, h.2.2.1 (by decide) 12, h.2.2.2 13 (by decide)⟩

/-- C6 counterexample: the 300 ms dismissal timeout scheduled by
`handleClose` (source line 75) is held in no ref, so the effect cleanup
(source lines 126-128) cannot cancel it: after a close button click followed
by teardown, the dismissal callback of the unmounted instance still fires. -/
theorem toast_onclose_fires_after_unmount :
    (run sampleCfg [Ev.clickClose 0, Ev.unmount]).mounted = false
    ∧ (run sampleCfg [Ev.clickClose 0, Ev.unmount]).onCloseCount = 0
    ∧ (step sampleCfg (run sampleCfg [Ev.clickClose 0, Ev.unmount])
        (.closeFire 300)).onCloseCount = 1 := by
  exact ⟨by decide, by decide, by decide⟩

/-- C6 amended: on teardown the cleanup cancels exactly the two
ref-held handles — the expiry timeout (`timerRef`) and the progress
animation-frame handle (`progressRef`) — so no expiry or progress callback
fires after teardown; the 300 ms dismissal timeout scheduled on the close
path is not held in a ref and is not cancelled, so the dismissal callback can
still fire after teardown (see the counterexample). -/
theorem toast_cleanup_cancels_ref_handles (cfg : Config) (es : List Ev) :
    (run cfg (es ++ [Ev.unmount])).timerRef = none
    ∧ (run cfg (es ++ [Ev.unmount])).progressRef = none
    ∧ (run cfg (es ++ [Ev.unmount])).mounted = false
    ∧ (∀ now, step cfg (run cfg (es ++ [Ev.unmount])) (.timerFire now)
        = run cfg (es ++ [Ev.unmount]))
    ∧ (∀ now, step cfg (run cfg (es ++ [Ev.unmount])) (.animFrame now)
        = run cfg (es ++ [Ev.unmount])) := by
  have hrun : run cfg (es ++ [Ev.unmount]) = step cfg (run cfg es) Ev.unmount := by
    unfold run
    rw [List.foldl_append]
    rfl
  refine ⟨?_, ?_, ?_, ?_, ?_⟩
  · rw [hrun]
    simp [step, cleanupRefs]
  · rw [hrun]
    simp [step, cleanupRefs]
  · rw [hrun]
    simp [step, cleanupRefs]
  · intro now
    rw [hrun]
    simp [step, cleanupRefs]
  · intro now
    rw [hrun]
    simp [step, cleanupRefs]

/-! ### Zero-duration and progress-flag invariants -/

lemma handleClose_timerRef (now : ℚ) (s : TState) :
    (handleClose now s).timerRef = s.timerRef := by
  unfold handleClose
  split <;> rfl

lemma handleClose_progressRef (now : ℚ) (s : TState) :
    (handleClose now s).progressRef = s.progressRef := by
  unfold handleClose
  split <;> rfl

lemma handleClose_progress (now : ℚ) (s : TState) :
    (handleClose now s).progress = s.progress := by
  unfold handleClose
  split <;> rfl

lemma mountEffect_progress (cfg : Config) (now : ℚ) (s : TState) :
    (mountEffect cfg now s).progress = s.progress := by
  unfold mountEffect
  split <;> try split
  all_goals rfl

lemma mountEffect_progressRef_of_noBar (cfg : Config) (hs : cfg.showProgress = false)
    (now : ℚ) (s : TState) :
    (mountEffect cfg now s).progressRef = s.progressRef := by
  unfold mountEffect
  split
  · rw [if_neg (by simp [hs])]
  · rfl

/-- With `safeDuration = 0`, no event ever installs a timer or progress
handle, and only a manual/forced close trigger can change `isLeaving`. -/
lemma zero_duration_step (cfg : Config) (h0 : cfg.safeDuration = 0) (s : TState) (e : Ev)
    (hT : s.timerRef = none) (hP : s.progressRef = none) :
    (step cfg s e).timerRef = none ∧ (step cfg s e).progressRef = none
    ∧ (isManualClose e = false → (step cfg s e).isLeaving = s.isLeaving) := by
  cases e with
  | timerFire now =>
      have hs : step cfg s (.timerFire now) = s := by simp only [step, hT]
      rw [hs]
      exact ⟨hT, hP, fun _ => rfl⟩
  | clickClose now =>
      simp only [step]
      split
      · exact ⟨by rw [handleClose_timerRef]; exact hT,
          by rw [handleClose_progressRef]; exact hP,
          by intro hfalse; simp [isManualClose] at hfalse⟩
      · exact ⟨hT, hP, fun _ => rfl⟩
  | escapeKey now =>
      simp only [step]
      split
      · exact ⟨by rw [handleClose_timerRef]; exact hT,
          by rw [handleClose_progressRef]; exact hP,
          by intro hfalse; simp [isManualClose] at hfalse⟩
      · exact ⟨hT, hP, fun _ => rfl⟩
  | forcedClose now =>
      simp only [step]
      split
      · exact ⟨by rw [handleClose_timerRef]; exact hT,
          by rw [handleClose_progressRef]; exact hP,
          by intro hfalse; simp [isManualClose] at hfalse⟩
      · exact ⟨hT, hP, fun _ => rfl⟩
  | mouseEnter =>
      simp only [step]
      split
      · exact ⟨rfl, rfl, fun _ => rfl⟩
      · exact ⟨hT, hP, fun _ => rfl⟩
  | mouseLeave now =>
      simp only [step]
      split
      · have hskip : handleMouseLeave cfg now s = s := by
          unfold handleMouseLeave
          rw [if_neg (by rw [h0]; intro hc; exact absurd hc.1 (by norm_num))]
        rw [hskip]
        exact ⟨hT, hP, fun _ => rfl⟩
      · exact ⟨hT, hP, fun _ => rfl⟩
  | focusEnter => exact ⟨hT, hP, fun _ => rfl⟩
  | animFrame now =>
      have hs : step cfg s (.animFrame now) = s := by simp only [step, hP]
      rw [hs]
      exact ⟨hT, hP, fun _ => rfl⟩
  | closeFire now =>
      simp only [step]
      cases hc : s.pendingOnClose with
      | nil => exact ⟨hT, hP, fun _ => rfl⟩
      | cons t rest => exact ⟨hT, hP, fun _ => rfl⟩
  | effectRerun now =>
      simp only [step]
      split
      · have hmz : mountEffect cfg now (cleanupRefs s)
            = { cleanupRefs s with isVisible := true } := by
          unfold mountEffect
          rw [if_neg (by rw [h0]; norm_num)]
        rw [hmz]
        exact ⟨rfl, rfl, fun _ => rfl⟩
      · exact ⟨hT, hP, fun _ => rfl⟩
  | unmount =>
      simp only [step]
      exact ⟨rfl, rfl, fun _ => rfl⟩

lemma zero_duration_runFrom (cfg : Config) (h0 : cfg.safeDuration = 0)
    (s : TState) (es : List Ev) (hT : s.timerRef = none) (hP : s.progressRef = none) :
    (runFrom cfg s es).timerRef = none ∧ (runFrom cfg s es).progressRef = none
    ∧ ((∀ e ∈ es, isManualClose e = false) →
        (runFrom cfg s es).isLeaving = s.isLeaving) := by
  induction es generalizing s with
  | nil => exact ⟨hT, hP, fun _ => rfl⟩
  | cons e rest ih =>
      have hstep := zero_duration_step cfg h0 s e hT hP
      have ihr := ih (step cfg s e) hstep.1 hstep.2.1
      refine ⟨ihr.1, ihr.2.1, ?_⟩
      intro hall
      have h1 : (runFrom cfg (step cfg s e) rest).isLeaving = (step cfg s e).isLeaving :=
        ihr.2.2 (fun x hx => hall x (List.mem_cons_of_mem e hx))
      have h2 : (step cfg s e).isLeaving = s.isLeaving :=
        hstep.2.2 (hall e (List.mem_cons_self e rest))
      show (runFrom cfg (step cfg s e) rest).isLeaving = s.isLeaving
      rw [h1, h2]

/-- C5: with `durationMs = 0` no expiry timer and no progress handle is
ever installed (source line 104 guards both), the progress bar is not
rendered (source line 291), the toast never becomes Leaving unless a
manual/forced close trigger is delivered, and such a trigger does move it to
Leaving. -/
theorem toast_zero_duration_persists (cfg : Config) (es : List Ev)
    (h0 : cfg.safeDuration = 0) :
    (run cfg es).timerRef = none
    ∧ (run cfg es).progressRef = none
    ∧ showProgressBar cfg = false
    ∧ ((∀ e ∈ es, isManualClose e = false) → (run cfg es).isLeaving = false)
    ∧ (∀ now, (run cfg es).mounted = true →
        (step cfg (run cfg es) (.escapeKey now)).isLeaving = true) := by
  have hmz : mountEffect cfg 0 initialState = { initialState with isVisible := true } := by
    unfold mountEffect
    rw [if_neg (by rw [h0]; norm_num)]
  have hinv := zero_duration_runFrom cfg h0 (mountEffect cfg 0 initialState) es
    (by rw [hmz]; rfl) (by rw [hmz]; rfl)
  refine ⟨hinv.1, hinv.2.1, ?_, ?_, ?_⟩
  · simp [showProgressBar, h0]
  · intro hall
    have := hinv.2.2 hall
    unfold run
    rw [show es.foldl (step cfg) (mountEffect cfg 0 initialState)
        = runFrom cfg (mountEffect cfg 0 initialState) es from rfl]
    rw [this, hmz]
    rfl
  · intro now hm
    simp only [step]
    rw [if_pos hm]
    exact handleClose_isLeaving now _

/-- Witness for C5: a zero-duration toast survives a timer-fire attempt, a
mouse leave and an animation frame without leaving, and the Escape key then
dismisses it. -/
theorem toast_zero_duration_persists_witness :
    (run zeroCfg [Ev.timerFire 100, Ev.mouseLeave 50, Ev.animFrame 60]).timerRef = none
    ∧ (run zeroCfg [Ev.timerFire 100, Ev.mouseLeave 50, Ev.animFrame 60]).isLeaving = false
    ∧ (step zeroCfg (run zeroCfg [Ev.timerFire 100, Ev.mouseLeave 50, Ev.animFrame 60])
        (.escapeKey 200)).isLeaving = true := by
  have h := toast_zero_duration_persists zeroCfg
    [Ev.timerFire 100, Ev.mouseLeave 50, Ev.animFrame 60] (by decide)
  exact ⟨h.1, h.2.2.2.1 (by decide), h.2.2.2.2 200 (by decide)⟩

/-- With `showProgress = false`, no event installs a progress handle and the
progress value never moves off its initial 100. -/
lemma noBar_step (cfg : Config) (hs : cfg.showProgress = false) (s : TState) (e : Ev)
    (hP : s.progressRef = none) (hpr : s.progress = 100) :
    (step cfg s e).progressRef = none ∧ (step cfg s e).progress = 100 := by
  cases e with
  | timerFire now =>
      simp only [step]
      cases ht : s.timerRef with
      | none => exact ⟨hP, hpr⟩
      | some t =>
          exact ⟨by rw [handleClose_progressRef]; exact hP,
            by rw [handleClose_progress]; exact hpr⟩
  | clickClose now =>
      simp only [step]
      split
      · exact ⟨by rw [handleClose_progressRef]; exact hP,
          by rw [handleClose_progress]; exact hpr⟩
      · exact ⟨hP, hpr⟩
  | escapeKey now =>
      simp only [step]
      split
      · exact ⟨by rw [handleClose_progressRef]; exact hP,
          by rw [handleClose_progress]; exact hpr⟩
      · exact ⟨hP, hpr⟩
  | forcedClose now =>
      simp only [step]
      split
      · exact ⟨by rw [handleClose_progressRef]; exact hP,
          by rw [handleClose_progress]; exact hpr⟩
      · exact ⟨hP, hpr⟩
  | mouseEnter =>
      simp only [step]
      split
      · exact ⟨rfl, hpr⟩
      · exact ⟨hP, hpr⟩
  | mouseLeave now =>
      simp only [step]
      split
      · unfold handleMouseLeave
        split
        · rw [if_neg (by simp [hs])]
          exact ⟨hP, hpr⟩
        · exact ⟨hP, hpr⟩
      · exact ⟨hP, hpr⟩
  | focusEnter => exact ⟨hP, hpr⟩
  | animFrame now =>
      have hs : step cfg s (.animFrame now) = s := by simp only [step, hP]
      rw [hs]
      exact ⟨hP, hpr⟩
  | closeFire now =>
      simp only [step]
      cases hc : s.pendingOnClose with
      | nil => exact ⟨hP, hpr⟩
      | cons t rest => exact ⟨hP, hpr⟩
  | effectRerun now =>
      simp only [step]
      split
      · exact ⟨by rw [mountEffect_progressRef_of_noBar cfg hs]; rfl,
          by rw [mountEffect_progress]; exact hpr⟩
      · exact ⟨hP, hpr⟩
  | unmount =>
      simp only [step]
      exact ⟨rfl, hpr⟩

lemma noBar_runFrom (cfg : Config) (hs : cfg.showProgress = false)
    (s : TState) (es : List Ev) (hP : s.progressRef = none) (hpr : s.progress = 100) :
    (runFrom cfg s es).progressRef = none ∧ (runFrom cfg s es).progress = 100 := by
  induction es generalizing s with
  | nil => exact ⟨hP, hpr⟩
  | cons e rest ih =>
      have hstep := noBar_step cfg hs s e hP hpr
      exact ih (step cfg s e) hstep.1 hstep.2

/-- C10: with `durationMs > 0` the auto-hide timer is installed for
`durationMs` independently of `showProgress` (source line 104 does not
consult it), its expiry moves the toast to Leaving, and with
`showProgress = false` no progress recomputation is ever scheduled and the
progress value stays at its initial 100 forever. -/
theorem toast_timer_independent_of_progress_flag (cfg : Config) (es : List Ev)
    (hd : 0 < cfg.safeDuration) :
    (mountEffect cfg 0 initialState).timerRef = some (0 + cfg.safeDuration)
    ∧ (step cfg (mountEffect cfg 0 initialState) (.timerFire cfg.safeDuration)).isLeaving = true
    ∧ (cfg.showProgress = false →
        (run cfg es).progress = 100 ∧ (run cfg es).progressRef = none) := by
  have hT : (mountEffect cfg 0 initialState).timerRef = some (0 + cfg.safeDuration) := by
    unfold mountEffect
    rw [if_pos hd]
    split <;> rfl
  refine ⟨hT, ?_, ?_⟩
  · simp only [step, hT]
    exact handleClose_isLeaving _ _
  · intro hs
    have hP0 : (mountEffect cfg 0 initialState).progressRef = none := by
      rw [mountEffect_progressRef_of_noBar cfg hs]
      rfl
    have hpr0 : (mountEffect cfg 0 initialState).progress = 100 := by
      rw [mountEffect_progress]
      rfl
    have h := noBar_runFrom cfg hs (mountEffect cfg 0 initialState) es hP0 hpr0
    exact ⟨h.2, h.1⟩

/-- Witness for C10: with the progress bar disabled, the timer is still
installed for the full 5000 ms, fires into Leaving, and progress never moves
off 100 across a resume attempt and an animation frame. -/
theorem toast_timer_independent_of_progress_flag_witness :
    (mountEffect noBarCfg 0 initialState).timerRef = some (0 + noBarCfg.safeDuration)
    ∧ (step noBarCfg (mountEffect noBarCfg 0 initialState)
        (.timerFire noBarCfg.safeDuration)).isLeaving = true
    ∧ (run noBarCfg [Ev.mouseLeave 50, Ev.animFrame 100]).progress = 100
    ∧ (run noBarCfg [Ev.mouseLeave 50, Ev.animFrame 100]).progressRef = none := by
  have h := toast_timer_independent_of_progress_flag noBarCfg
    [Ev.mouseLeave 50, Ev.animFrame 100] (by decide)
  exact ⟨h.1, h.2.1, (h.2.2 rfl).1, (h.2.2 rfl).2⟩

/-! ### Pause freezes progress -/

lemma wait_step_progress (cfg : Config) (s : TState) (e : Ev)
    (hw : isWaitEv e = true) (hP : s.progressRef = none) :
    (step cfg s e).progressRef = none ∧ (step cfg s e).progress = s.progress := by
  cases e with
  | timerFire now =>
      simp only [step]
      cases ht : s.timerRef with
      | none => exact ⟨hP, rfl⟩
      | some t =>
          exact ⟨by rw [handleClose_progressRef]; exact hP,
            by rw [handleClose_progress]⟩
  | animFrame now =>
      have hs : step cfg s (.animFrame now) = s := by simp only [step, hP]
      rw [hs]
      exact ⟨hP, rfl⟩
  | closeFire now =>
      simp only [step]
      cases hc : s.pendingOnClose with
      | nil => exact ⟨hP, rfl⟩
      | cons t rest => exact ⟨hP, rfl⟩
  | clickClose now => simp [isWaitEv] at hw
  | escapeKey now => simp [isWaitEv] at hw
  | forcedClose now => simp [isWaitEv] at hw
  | mouseEnter => simp [isWaitEv] at hw
  | mouseLeave now => simp [isWaitEv] at hw
  | focusEnter => simp [isWaitEv] at hw
  | effectRerun now => simp [isWaitEv] at hw
  | unmount => simp [isWaitEv] at hw

lemma wait_runFrom_progress (cfg : Config) (s : TState) (es : List Ev)
    (hw : ∀ e ∈ es, isWaitEv e = true) (hP : s.progressRef = none) :
    (runFrom cfg s es).progress = s.progress := by
  induction es generalizing s with
  | nil => rfl
  | cons e rest ih =>
      have hstep := wait_step_progress cfg s e (hw e (List.mem_cons_self e rest)) hP
      have := ih (step cfg s e) (fun x hx => hw x (List.mem_cons_of_mem e hx)) hstep.1
      simp only [runFrom, List.foldl_cons] at *
      rw [this, hstep.2]

/-- C4 counterexample: focus-enter is not a pause trigger.  The rendered
element wires `onKeyDown`, `onMouseEnter` and `onMouseLeave` only (source
lines 234-236) and no `onFocus` handler, so delivering focus to a freshly
mounted toast whose expiry timeout and progress schedule are both pending
cancels neither of them: the state is unchanged, refuting the claim that a
focus-enter trigger immediately cancels the pending handles. -/
theorem toast_focus_enter_does_not_pause :
    (mountEffect sampleCfg 0 initialState).timerRef.isSome = true
    ∧ (mountEffect sampleCfg 0 initialState).progressRef.isSome = true
    ∧ step sampleCfg (mountEffect sampleCfg 0 initialState) .focusEnter
        = mountEffect sampleCfg 0 initialState := by
  exact ⟨by decide, by decide, rfl⟩

/-- C4 amended: a pointer-enter pause trigger immediately cancels the pending
expiry timeout and the progress-update schedule (source lines 144-147), and
while the toast only waits — scheduler deliveries, no resume — its progress
value stays at the value it had when the pause happened.  Focus-enter is not
a pause trigger: no focus handler is wired, so it cancels nothing (see the
counterexample). -/
theorem toast_pause_freezes_progress (cfg : Config) (s : TState) (es : List Ev)
    (hm : s.mounted = true) (hw : ∀ e ∈ es, isWaitEv e = true) :
    (step cfg s .mouseEnter).timerRef = none
    ∧ (step cfg s .mouseEnter).progressRef = none
    ∧ (step cfg s .mouseEnter).progress = s.progress
    ∧ (runFrom cfg (step cfg s .mouseEnter) es).progress = s.progress := by
  have hpause : step cfg s .mouseEnter = cleanupRefs s := by
    simp [step, hm, handleMouseEnter]
  refine ⟨by rw [hpause]; rfl, by rw [hpause]; rfl, by rw [hpause]; rfl, ?_⟩
  rw [hpause]
  exact wait_runFrom_progress cfg (cleanupRefs s) es hw rfl

/-- Witness for C4: pause after one progress frame of a concrete run; a
timer-fire attempt and two further animation frames leave progress at its
paused value. -/
theorem toast_pause_freezes_progress_witness :
    (step sampleCfg (run sampleCfg [Ev.animFrame 1000]) .mouseEnter).timerRef = none
    ∧ (step sampleCfg (run sampleCfg [Ev.animFrame 1000]) .mouseEnter).progressRef = none
    ∧ (runFrom sampleCfg (step sampleCfg (run sampleCfg [Ev.animFrame 1000]) .mouseEnter)
        [Ev.timerFire 2000, Ev.animFrame 3000, Ev.animFrame 4000]).progress
      = (run sampleCfg [Ev.animFrame 1000]).progress := by
  have h := toast_pause_freezes_progress sampleCfg (run sampleCfg [Ev.animFrame 1000])
    [Ev.timerFire 2000, Ev.animFrame 3000, Ev.animFrame 4000] (by decide) (by decide)
  exact ⟨h.1, h.2.1, h.2.2.2⟩

/-! ### Progress arithmetic: monotone decay and resume semantics -/

/-- C3: with `durationMs > 0`, each recompute step is exactly
`max(0, 100 - (elapsed / duration) * 100)` of `elapsed = now - startTime`; it
is non-increasing in elapsed time, reaches 0 at or before `duration` elapses,
and reschedules itself exactly when progress is still positive and
`elapsed < duration` (source lines 112-122). -/
theorem toast_progress_monotone (d : ℚ) (hd : 0 < d) :
    (∀ startTime now, runPJob d (.mountJob startTime) now
        = (updateProgressMount d (now - startTime),
            decide (0 < updateProgressMount d (now - startTime))
              && decide (now - startTime < d)))
    ∧ (∀ e1 e2, e1 ≤ e2 → updateProgressMount d e2 ≤ updateProgressMount d e1)
    ∧ (∀ e, d ≤ e → updateProgressMount d e = 0)
    ∧ (∀ startTime now, (runPJob d (.mountJob startTime) now).2 = true
        ↔ (0 < (runPJob d (.mountJob startTime) now).1 ∧ now - startTime < d)) := by
  refine ⟨fun startTime now => rfl, ?_, ?_, ?_⟩
  · intro e1 e2 h
    unfold updateProgressMount
    apply max_le_max le_rfl
    have h2 : e1 / d ≤ e2 / d := (div_le_div_iff_of_pos_right hd).mpr h
    nlinarith
  · intro e he
    unfold updateProgressMount
    apply max_eq_left
    have h1 : (1 : ℚ) ≤ e / d := (one_le_div hd).mpr he
    nlinarith
  · intro startTime now
    simp [runPJob]

/-- Witness for C3 at `duration = 5000`: progress at 2500 ms is below progress
at 1000 ms, progress is 0 at 5000 ms, and the step at 6000 ms does not
reschedule. -/
theorem toast_progress_monotone_witness :
    updateProgressMount 5000 2500 ≤ updateProgressMount 5000 1000
    ∧ updateProgressMount 5000 5000 = 0
    ∧ ((runPJob 5000 (.mountJob 0) 6000).2 = true
        ↔ (0 < (runPJob 5000 (.mountJob 0) 6000).1 ∧ (6000 : ℚ) - 0 < 5000)) := by
  have h := toast_progress_monotone 5000 (by norm_num)
  exact ⟨h.2.1 1000 2500 (by norm_num), h.2.2.1 5000 le_rfl, h.2.2.2 0 6000⟩

/-- A concrete state paused at progress 75, used as a witness input. -/
def resumeState75 : TState :=
  { initialState with progress := 75 }

/-- C2: resuming at progress `p > 0` with `durationMs > 0` schedules the
expiry timeout for `remainingMs = (p/100) * durationMs` after `now`, restarts
progress recomputation from `initialProgress = p` over `remainingMs` (so the
recomputed value starts at `p`, decays linearly, and hits 0 exactly when
`remainingMs` has elapsed), and the restart is skipped entirely when
`durationMs = 0` or progress has already reached 0 (source lines 149-175). -/
theorem toast_resume_remaining_time (cfg : Config) (now : ℚ) (s : TState)
    (hp0 : 0 ≤ s.progress) :
    (0 < cfg.safeDuration → 0 < s.progress →
      ((handleMouseLeave cfg now s).timerRef
          = some (now + (s.progress / 100) * cfg.safeDuration)
        ∧ (cfg.showProgress = true →
            (handleMouseLeave cfg now s).progressRef
              = some (.resumeJob now s.progress ((s.progress / 100) * cfg.safeDuration)))
        ∧ updateProgressResume s.progress ((s.progress / 100) * cfg.safeDuration) 0
            = s.progress
        ∧ (∀ e, 0 ≤ e → e ≤ (s.progress / 100) * cfg.safeDuration →
            updateProgressResume s.progress ((s.progress / 100) * cfg.safeDuration) e
              = s.progress * (((s.progress / 100) * cfg.safeDuration - e)
                  / ((s.progress / 100) * cfg.safeDuration)))
        ∧ updateProgressResume s.progress ((s.progress / 100) * cfg.safeDuration)
            ((s.progress / 100) * cfg.safeDuration) = 0))
    ∧ ((cfg.safeDuration = 0 ∨ s.progress = 0) → handleMouseLeave cfg now s = s) := by
  constructor
  · intro hd hp
    have hrem : 0 < (s.progress / 100) * cfg.safeDuration :=
      mul_pos (div_pos hp (by norm_num)) hd
    have hrne : (s.progress / 100) * cfg.safeDuration ≠ 0 := ne_of_gt hrem
    refine ⟨?_, ?_, ?_, ?_, ?_⟩
    · unfold handleMouseLeave
      rw [if_pos ⟨hd, hp⟩]
      split <;> rfl
    · intro hsp
      unfold handleMouseLeave
      rw [if_pos ⟨hd, hp⟩, if_pos hsp]
    · unfold updateProgressResume
      rw [zero_div, zero_mul, sub_zero]
      exact max_eq_right hp0
    · intro e he0 heR
      unfold updateProgressResume
      have key : s.progress - e / ((s.progress / 100) * cfg.safeDuration) * s.progress
          = s.progress * (((s.progress / 100) * cfg.safeDuration - e)
              / ((s.progress / 100) * cfg.safeDuration)) := by
        field_simp
        ring
      rw [key]
      apply max_eq_right
      apply mul_nonneg hp0
      apply div_nonneg (by linarith) (le_of_lt hrem)
    · unfold updateProgressResume
      rw [div_self hrne, one_mul, sub_self]
      exact max_self 0
  · intro hor
    unfold handleMouseLeave
    rw [if_neg]
    rintro ⟨hd, hp⟩
    cases hor with
    | inl h0 =>
        rw [h0] at hd
        exact absurd hd (by norm_num)
    | inr hpz =>
        rw [hpz] at hp
        exact absurd hp (by norm_num)

/-- Witness for C2: pausing the default 5000 ms toast at progress 75 and
resuming at `now = 1000` schedules expiry at `1000 + 3750 = 4750`, restarts
progress at 75 and decays it to 0 at `remainingMs`; a zero-duration
configuration skips the restart. -/
theorem toast_resume_remaining_time_witness :
    (handleMouseLeave sampleCfg 1000 resumeState75).timerRef = some 4750
    ∧ updateProgressResume resumeState75.progress
        ((resumeState75.progress / 100) * sampleCfg.safeDuration) 0 = resumeState75.progress
    ∧ updateProgressResume resumeState75.progress
        ((resumeState75.progress / 100) * sampleCfg.safeDuration)
        ((resumeState75.progress / 100) * sampleCfg.safeDuration) = 0
    ∧ handleMouseLeave zeroCfg 9 resumeState75 = resumeState75 := by
  have hp0 : (0 : ℚ) ≤ resumeState75.progress := by
    norm_num [resumeState75, initialState]
  have h := toast_resume_remaining_time sampleCfg 1000 resumeState75 hp0
  have h0 := toast_resume_remaining_time zeroCfg 9 resumeState75 hp0
  have hd : 0 < sampleCfg.safeDuration := by
    norm_num [sampleCfg, Config.safeDuration]
  have hp : 0 < resumeState75.progress := by
    norm_num [resumeState75, initialState]
  refine ⟨?_, (h.1 hd hp).2.2.1, (h.1 hd hp).2.2.2.2,
    h0.2 (Or.inl (by norm_num [zeroCfg, Config.safeDuration]))⟩
  rw [(h.1 hd hp).1]
  norm_num [resumeState75, initialState, sampleCfg, Config.safeDuration]

/-! ### Animation-class selection -/

/-- JavaScript `String.prototype.includes` for a nonempty needle: `splitOn`
yields more than one piece exactly when the needle occurs in the string. -/
def includes (s needle : String) : Bool :=
  decide (1 < (s.splitOn needle).length)

/-- `getAnimationClass` (source lines 185-212), as a function of the two state
booleans and the `position` prop. -/
def getAnimationClass (isLeaving isVisible : Bool) (position : String) : String :=
  let isRightPosition := includes position "right"
  let isLeftPosition := includes position "left"
  let isTopPosition := includes position "top"
  let isBottomPosition := includes position "bottom"
  if isLeaving then
    if isRightPosition then "animate-slide-out-to-right"
    else if isLeftPosition then "animate-slide-out-to-left"
    else if isTopPosition && !isRightPosition && !isLeftPosition then
      "animate-slide-out-to-top"
    else if isBottomPosition && !isRightPosition && !isLeftPosition then
      "animate-slide-out-to-bottom"
    else "animate-slide-out-to-right"
  else if isVisible then
    if isRightPosition then "animate-slide-in-from-right"
    else if isLeftPosition then "animate-slide-in-from-left"
    else if isTopPosition && !isRightPosition && !isLeftPosition then
      "animate-slide-in-from-top"
    else if isBottomPosition && !isRightPosition && !isLeftPosition then
      "animate-slide-in-from-bottom"
    else "animate-slide-in-from-right"
  else "opacity-0 translate-x-full"

/-- Lifecycle phases named by the specification. -/
inductive Phase where
  | visible
  | leaving
deriving DecidableEq

/-- The animation-class mapping exactly as the specification words it:
right → right, else left → left, else top → top, else bottom → bottom, else
the right-hand default; `Visible` uses slide-in-from tokens and `Leaving` the
mirrored slide-out-to tokens. -/
def animClassSpec : Phase → String → String
  | .visible, position =>
      if includes position "right" then "animate-slide-in-from-right"
      else if includes position "left" then "animate-slide-in-from-left"
      else if includes position "top" then "animate-slide-in-from-top"
      else if includes position "bottom" then "animate-slide-in-from-bottom"
      else "animate-slide-in-from-right"
  | .leaving, position =>
      if includes position "right" then "animate-slide-out-to-right"
      else if includes position "left" then "animate-slide-out-to-left"
      else if includes position "top" then "animate-slide-out-to-top"
      else if includes position "bottom" then "animate-slide-out-to-bottom"
      else "animate-slide-out-to-right"

/-- C7: the animation class is a pure function of phase and position, and it
agrees with the specification's position analysis in both phases — in the
Leaving phase regardless of the `isVisible` flag, since the source checks
`isLeaving` first (source lines 185-212). -/
theorem toast_animation_class_matches_spec (position : String) (isVisible : Bool) :
    getAnimationClass true isVisible position = animClassSpec .leaving position
    ∧ getAnimationClass false true position = animClassSpec .visible position := by
  constructor <;>
  · unfold getAnimationClass animClassSpec
    cases hR : includes position "right" <;>
      cases hL : includes position "left" <;>
        cases hT : includes position "top" <;>
          cases hB : includes position "bottom" <;>
            simp [hR, hL, hT, hB]

/-! ### Variant fallback -/

/-- The closed set of accepted variants (source line 62). -/
def validVariants : List String :=
  ["success", "error", "warning", "info"]

/-- `safeVariant` (source line 63): keep a listed variant, otherwise fall back
to `"info"`. -/
def safeVariant (variant : String) : String :=
  if validVariants.contains variant then variant else "info"

/-- The icon components used by the toast (source lines 7-12). -/
inductive ToastIcon where
  | checkCircle
  | alertCircle
  | alertTriangle
  | infoCircle
deriving DecidableEq

/-- The `toastIcons` lookup object (source lines 7-12): a JavaScript property
access yields `undefined` (`none`) for an unknown key. -/
def toastIcons (v : String) : Option ToastIcon :=
  if v = "success" then some .checkCircle
  else if v = "error" then some .alertCircle
  else if v = "warning" then some .alertTriangle
  else if v = "info" then some .infoCircle
  else none

/-- One variant's color tokens (source lines 14-39). -/
structure VariantStyle where
  container : String
  icon : String
  iconBg : String
deriving DecidableEq

/-- The `info` entry of `toastVariants` (source lines 33-38). -/
def infoStyle : VariantStyle :=
  { container :=
      "toast-info border-blue-200 dark:border-blue-800 bg-blue-50 dark:bg-blue-900/20"
    icon := "text-blue-600 dark:text-blue-400"
    iconBg := "bg-blue-100 dark:bg-blue-900/30" }

/-- The `toastVariants` lookup object (source lines 14-39). -/
def toastVariants (v : String) : Option VariantStyle :=
  if v = "success" then
    some
      { container :=
          "toast-success border-green-200 dark:border-green-800 bg-green-50 dark:bg-green-900/20"
        icon := "text-green-600 dark:text-green-400"
        iconBg := "bg-green-100 dark:bg-green-900/30" }
  else if v = "error" then
    some
      { container :=
          "toast-error border-red-200 dark:border-red-800 bg-red-50 dark:bg-red-900/20"
        icon := "text-red-600 dark:text-red-400"
        iconBg := "bg-red-100 dark:bg-red-900/30" }
  else if v = "warning" then
    some
      { container :=
          "toast-warning border-yellow-200 dark:border-yellow-800 bg-yellow-50 dark:bg-yellow-900/20"
        icon := "text-yellow-600 dark:text-yellow-400"
        iconBg := "bg-yellow-100 dark:bg-yellow-900/30" }
  else if v = "info" then some infoStyle
  else none

/-- The variant after applying the prop default (`variant = "info"`, source
line 45) and `safeVariant` (source line 63).  A missing prop is `none`. -/
def resolvedVariant (variantProp : Option String) : String :=
  safeVariant (variantProp.getD "info")

/-- The rendered icon: `toastIcons[safeVariant] || toastIcons.info` (source
line 68). -/
def iconFor (variantProp : Option String) : ToastIcon :=
  match toastIcons (resolvedVariant variantProp) with
  | some i => i
  | none => .infoCircle

/-- The rendered styles: `toastVariants[safeVariant] || toastVariants.info`
(source line 69). -/
def stylesFor (variantProp : Option String) : VariantStyle :=
  match toastVariants (resolvedVariant variantProp) with
  | some st => st
  | none => infoStyle

/-- The progress-bar tint chain (source lines 296-299): each listed variant
contributes its color class, an unknown one contributes nothing. -/
def progressBarTint (v : String) : Option String :=
  if v = "success" then some "bg-green-500"
  else if v = "error" then some "bg-red-500"
  else if v = "warning" then some "bg-yellow-500"
  else if v = "info" then some "bg-blue-500"
  else none

/-- C8: any variant value outside the closed set — including a missing one —
resolves to `info` and renders with the info icon, the info color styles and
the blue progress tint; every lookup involved is total, so construction and
rendering cannot throw. -/
theorem toast_variant_fallback_info (variantProp : Option String)
    (h : ∀ v, variantProp = some v → validVariants.contains v = false) :
    resolvedVariant variantProp = "info"
    ∧ iconFor variantProp = ToastIcon.infoCircle
    ∧ stylesFor variantProp = infoStyle
    ∧ progressBarTint (resolvedVariant variantProp) = some "bg-blue-500" := by
  have hres : resolvedVariant variantProp = "info" := by
    cases hv : variantProp with
    | none => rfl
    | some v =>
        unfold resolvedVariant safeVariant
        simp only [hv, Option.getD_some]
        rw [if_neg]
        rw [h v hv]
        simp
  refine ⟨hres, ?_, ?_, ?_⟩
  · unfold iconFor
    rw [hres]
    rfl
  · unfold stylesFor
    rw [hres]
    rfl
  · rw [hres]
    rfl

/-- Witness for C8: the variant `"bogus"` renders as `info`. -/
theorem toast_variant_fallback_info_witness :
    resolvedVariant (some "bogus") = "info"
    ∧ iconFor (some "bogus") = ToastIcon.infoCircle
    ∧ stylesFor (some "bogus") = infoStyle
    ∧ progressBarTint (resolvedVariant (some "bogus")) = some "bg-blue-500" := by
  refine toast_variant_fallback_info (some "bogus") ?_
  intro v hv
  injection hv with hv2
  rw [← hv2]
  decide

/-! ### Dismissal-callback errors -/

/-- The deferred close body (source lines 75-83):
`try { onClose?.(id) } catch (error) { if (development) logger.error(...) }`.
The callback's behaviour is an `Except`; the result is the outcome of the
whole body (an `Except.error` would mean the exception escaped) together with
the log lines emitted. -/
def onCloseDeferredBody (devMode : Bool) (onCloseResult : Except String Unit) :
    Except String (List String) :=
  match onCloseResult with
  | .ok _ => .ok []
  | .error e =>
      .ok (if devMode then ["Error in toast onClose callback: " ++ e] else [])

/-- C9 as stated by the specification: a throwing `onClose` is caught AND a
log entry is emitted. -/
def onCloseCaughtAndLogged (devMode : Bool) (e : String) : Prop :=
  ∃ logs, onCloseDeferredBody devMode (.error e) = .ok logs ∧ logs ≠ []

/-- C9 counterexample: outside development mode (`process.env.NODE_ENV`,
source line 79) a throwing `onClose` is caught but nothing is logged. -/
theorem toast_onclose_not_logged_in_production :
    ¬ onCloseCaughtAndLogged false "boom" := by
  rintro ⟨logs, hl, hne⟩
  unfold onCloseDeferredBody at hl
  simp only [Bool.false_eq_true, if_false] at hl
  cases hl
  exact hne rfl

/-- Delivery of one pending dismissal timeout with the callback outcome made
explicit: the timeout is consumed, the invocation of `onClose` is counted,
and its exception, if any, is absorbed by the try/catch (source lines 75-83).
This refines the `closeFire` step of the event model by exposing what the
deferred body returned. -/
def closeFireWith (devMode : Bool) (onCloseResult : Except String Unit) (s : TState) :
    TState × Except String (List String) :=
  match s.pendingOnClose with
  | _ :: rest =>
      ({ s with pendingOnClose := rest, onCloseCount := s.onCloseCount + 1 },
        onCloseDeferredBody devMode onCloseResult)
  | [] => (s, .ok [])

/-- C9 amended: a throwing dismissal callback is caught and is non-fatal: the
deferred close body returns normally for every callback outcome, so the
exception never propagates out of the close path and nothing escapes to crash
the render tree; the dismissal delivery completes exactly as for a
non-throwing callback — the pending timeout is consumed and the invocation
counted, so the removal handshake with the container is unaffected; and the
error is logged exactly when `NODE_ENV` is `"development"`. -/
theorem toast_onclose_error_caught (devMode : Bool) (e : String) :
    (∃ logs, onCloseDeferredBody devMode (.error e) = .ok logs
        ∧ (logs ≠ [] ↔ devMode = true))
    ∧ (∀ r : Except String Unit, ∃ logs, onCloseDeferredBody devMode r = .ok logs)
    ∧ (∀ r : Except String Unit, ∀ s : TState, ∃ logs,
        (closeFireWith devMode r s).2 = .ok logs)
    ∧ (∀ (cfg : Config) (s : TState) (now : ℚ),
        (closeFireWith devMode (.error e) s).1 = step cfg s (.closeFire now)
        ∧ (closeFireWith devMode (.error e) s).1 = (closeFireWith devMode (.ok ()) s).1) := by
  refine ⟨?_, ?_, ?_, ?_⟩
  · refine ⟨if devMode then ["Error in toast onClose callback: " ++ e] else [], rfl, ?_⟩
    cases devMode <;> simp
  · intro r
    cases r with
    | ok u => exact ⟨[], rfl⟩
    | error err =>
        exact ⟨if devMode then ["Error in toast onClose callback: " ++ err] else [], rfl⟩
  · intro r s
    cases hc : s.pendingOnClose with
    | nil => exact ⟨[], by simp [closeFireWith, hc]⟩
    | cons t rest =>
        cases r with
        | ok u => exact ⟨[], by simp [closeFireWith, hc, onCloseDeferredBody]⟩
        | error err =>
            exact ⟨if devMode then ["Error in toast onClose callback: " ++ err] else [],
              by simp [closeFireWith, hc, onCloseDeferredBody]⟩
  · intro cfg s now
    constructor
    · cases hc : s.pendingOnClose with
      | nil => simp [closeFireWith, step, hc]
      | cons t rest => simp [closeFireWith, step, hc]
    · cases hc : s.pendingOnClose with
      | nil => simp [closeFireWith, hc]
      | cons t rest => simp [closeFireWith, hc]

end PazarToast
